import Mathlib

/-!
Shallow embedding of the logging, log-rotation, timing and statistics
helpers of the SauceDemo Playwright test suite, together with proofs of
the specified properties.

The embedded functions are `logToFile`, `cleanupOldLogs`, `timeAction`
(and the `sort_feature` copy of it), `logTestStatistics` with the final
master-summary line, and `InventoryPage.getCartCount`.  File-system and
browser effects are made explicit: the file system is an oracle record
of `Except`-valued operations, timestamps and durations are parameters,
and mutation of the `testStats` counters is returned as increments.
-/

namespace SauceDemo

/-- Substring search on character lists: does `pat` occur contiguously in
the list?  This models the JavaScript `String.prototype.includes` test
used by `logToFile` for routing messages to the summary tiers. -/
def includesFrom (pat : List Char) : List Char → Bool
  | [] => pat.isEmpty
  | c :: rest => pat.isPrefixOf (c :: rest) || includesFrom pat rest

/-- `includesStr s pat` models `s.includes(pat)` from JavaScript. -/
def includesStr (s pat : String) : Bool :=
  includesFrom pat.data s.data

/-- A line of the per-run log file, as appended by `logToFile`: the
template is the formatted string of `[ts] [level] msg`. -/
structure RunLine where
  ts : String
  level : String
  msg : String
deriving DecidableEq

/-- A line of the per-feature summary file: the template is
`[ts] [runId] msg`. -/
structure SummaryLine where
  ts : String
  runId : String
  msg : String
deriving DecidableEq

/-- A line of the global (master) summary file: the template is
`[ts] [fileName] [runId] msg`. -/
structure MasterLine where
  ts : String
  fileName : String
  runId : String
  msg : String
deriving DecidableEq

/-- Contents of the three log tiers written by `logToFile`. -/
structure LogFiles where
  perRun : List RunLine
  summary : List SummaryLine
  master : List MasterLine
deriving DecidableEq

/-- Embedding of `logToFile(message, level)` from the test files
(`cart.spec.ts` lines 55-71 and the identical copies in the other spec
files).  `fileName` is `TEST_FILE_NAME`, `runId` is `testRunId` and `ts`
is the `new Date().toISOString()` value, passed in explicitly.  The JS
default `level = 'INFO'` is supplied by the callers of the embedding. -/
def logToFile (fileName runId ts : String) (st : LogFiles)
    (message level : String) : LogFiles :=
  let st1 : LogFiles := { st with perRun := st.perRun ++ [⟨ts, level, message⟩] }
  let st2 : LogFiles :=
    if level == "ERROR" || level == "SUMMARY" ||
        includesStr message "✅" || includesStr message "❌" then
      { st1 with summary := st1.summary ++ [⟨ts, runId, message⟩] }
    else st1
  if level == "ERROR" || level == "CRITICAL" ||
      includesStr message "TEST START" || includesStr message "COMPLETED" then
    { st2 with master := st2.master ++ [⟨ts, fileName, runId, message⟩] }
  else st2

/-- One call to `logToFile` during a run: the timestamp taken at the
call, the message and the level. -/
structure LogCall where
  ts : String
  message : String
  level : String
deriving DecidableEq

/-- A whole run: the sequence of `logToFile` calls folded over a
starting log state. -/
def runLog (fileName runId : String) (st : LogFiles) : List LogCall → LogFiles
  | [] => st
  | c :: cs => runLog fileName runId (logToFile fileName runId c.ts st c.message c.level) cs

/-- The empty log state at the start of a run. -/
def emptyLogFiles : LogFiles := ⟨[], [], []⟩

/-- A log line at the level/message granularity, used for the lines the
rotation routine, the timing wrapper and the statistics flush emit
through `logToFile`. -/
structure LogEntry where
  level : String
  msg : String
deriving DecidableEq

/-- A directory entry seen by the rotation routine: the file name and
its `mtime.getTime()` value in milliseconds. -/
structure FileEntry where
  name : String
  time : Int
deriving DecidableEq

/-- The comparator `(a, b) => b.time - a.time` of the rotation routine's
`sort`: `a` may come before `b` exactly when `b.time ≤ a.time`, so the
stable sort orders entries by modification time descending. -/
def newerFirst (a b : FileEntry) : Prop :=
  b.time ≤ a.time

instance : DecidableRel newerFirst :=
  fun a b => inferInstanceAs (Decidable (b.time ≤ a.time))

instance : IsTotal FileEntry newerFirst :=
  ⟨fun a b => le_total b.time a.time⟩

instance : IsTrans FileEntry newerFirst :=
  ⟨fun _ _ _ h1 h2 => le_trans h2 h1⟩

/-- The filter of the rotation routine:
`file.startsWith(TEST_FILE_NAME + "_tests_run_") && file.endsWith(".log")`,
stated on the character lists of the strings. -/
def qualifies (featureName file : String) : Bool :=
  (featureName ++ "_tests_run_").data.isPrefixOf file.data &&
    ".log".data.isSuffixOf file.data

/-- The file-system oracle for the rotation routine: the outcome of
`readdirSync` on the feature directory, of `statSync(...).mtime` per
file name, and of `unlinkSync` per file name.  Errors carry the
`error.message` string. -/
structure Fs where
  readdir : Except String (List String)
  mtimeOf : String → Except String Int
  unlink : String → Except String Unit

/-- The `.map(file => ({name, time, path}))` step: stat every file in
order, failing on the first `statSync` error. -/
def statFiles (mtimeOf : String → Except String Int) : List String → Except String (List FileEntry)
  | [] => Except.ok []
  | n :: ns =>
    match mtimeOf n with
    | Except.error e => Except.error e
    | Except.ok t =>
      match statFiles mtimeOf ns with
      | Except.error e => Except.error e
      | Except.ok rest => Except.ok (⟨n, t⟩ :: rest)

/-- The `filesToDelete.forEach` loop: unlink each file then log the
deletion; a failing `unlinkSync` aborts the loop, keeping the logs and
deletions made so far.  Returns the logs, the deleted names and the
error of the aborting failure, if any. -/
def deleteLoop (unlink : String → Except String Unit) :
    List FileEntry → List LogEntry × List String × Option String
  | [] => ([], [], none)
  | f :: rest =>
    match unlink f.name with
    | Except.error e => ([], [], some e)
    | Except.ok _ =>
      let r := deleteLoop unlink rest
      (⟨"INFO", "🗑️  Deleted old log: " ++ f.name⟩ :: r.1, f.name :: r.2.1, r.2.2)

/-- The body of the `try` block of `cleanupOldLogs`: list the directory,
keep the qualifying files, stat them, sort newest first, log the count,
and when more than 10 remain delete everything beyond the 10th.
Returns the logs written, the names deleted, and the error that escaped
the body, if any. -/
def cleanupBody (featureName : String) (fs : Fs) :
    List LogEntry × List String × Option String :=
  match fs.readdir with
  | Except.error e => ([], [], some e)
  | Except.ok names =>
    match statFiles fs.mtimeOf (names.filter (qualifies featureName)) with
    | Except.error e => ([], [], some e)
    | Except.ok entries =>
      let files := List.insertionSort newerFirst entries
      let foundLine : LogEntry :=
        ⟨"INFO", "📁 Found " ++ toString files.length ++ " existing log files for " ++ featureName⟩
      if files.length > 10 then
        let filesToDelete := files.drop 10
        let cleaningLine : LogEntry :=
          ⟨"INFO", "🗑️  Cleaning up " ++ toString filesToDelete.length ++ " old log files"⟩
        let r := deleteLoop fs.unlink filesToDelete
        (foundLine :: cleaningLine :: r.1, r.2.1, r.2.2)
      else ([foundLine], [], none)

/-- Result of running `cleanupOldLogs`: the log lines written, the file
names deleted, and the increment applied to `testStats.warnings`.  The
function is total: every error of the body is consumed by the `catch`. -/
structure CleanupResult where
  logs : List LogEntry
  deleted : List String
  warningsInc : Nat
deriving DecidableEq

/-- Embedding of `cleanupOldLogs` (`cart.spec.ts` lines 116-143): run
the body and, on any error, append the single warning line
`⚠️  Failed to cleanup old logs: <error.message>` and bump the warnings
counter instead of re-raising. -/
def cleanupOldLogs (featureName : String) (fs : Fs) : CleanupResult :=
  let r := cleanupBody featureName fs
  match r.2.2 with
  | none => ⟨r.1, r.2.1, 0⟩
  | some e => ⟨r.1 ++ [⟨"WARNING", "⚠️  Failed to cleanup old logs: " ++ e⟩], r.2.1, 1⟩

/-- A file system on which every operation succeeds: the directory
listing is `names` and the modification time of `n` is `t n`. -/
def pureFs (names : List String) (t : String → Int) : Fs :=
  ⟨Except.ok names, fun n => Except.ok (t n), fun _ => Except.ok ()⟩

/-- The directory contents after the deletions: the original listing
minus the deleted names. -/
def remainingDir (names deleted : List String) : List String :=
  names.filter (fun n => !(deleted.contains n))

/-- A JavaScript error value as observed by the wrappers: its `message`
and its `stack`. -/
structure JsError where
  message : String
  stack : String
deriving DecidableEq

/-- Result of `timeAction`: the log lines written, the increment applied
to `testStats.slowOps`, and the settled outcome (re-raised error or
returned value). -/
structure ActionResult (α : Type) where
  logs : List LogEntry
  slowOpsInc : Nat
  result : Except JsError α

/-- The `fullContext` computed by `timeAction`:
`context ? context + " - " + actionName : actionName`. -/
def fullContextOf (context actionName : String) : String :=
  if context.isEmpty then actionName else context ++ " - " ++ actionName

/-- Embedding of `timeAction(actionName, actionFn, context)` as found in
`cart.spec.ts` lines 74-99, `checkout.spec.ts` and the login spec file:
log the start line, then on success log the completion line — plus, when
the elapsed time exceeds 5000 ms, the slow-operation warning together
with `testStats.slowOps++` — and on failure log the three ERROR lines
and re-raise the original error.  The settled outcome of `actionFn` and
the measured duration are passed in explicitly. -/
def timeAction (actionName context : String) (outcome : Except JsError α)
    (duration : Nat) : ActionResult α :=
  let fullContext := fullContextOf context actionName
  let startLine : LogEntry := ⟨"ACTION", "⏱️  STARTING: " ++ fullContext⟩
  match outcome with
  | Except.ok v =>
    let doneLine : LogEntry :=
      ⟨"SUCCESS", "✅ COMPLETED: " ++ fullContext ++ " (" ++ toString duration ++ "ms)"⟩
    if duration > 5000 then
      ⟨[startLine, doneLine,
        ⟨"WARNING", "⚠️  SLOW OPERATION: " ++ fullContext ++ " took " ++ toString duration ++ "ms"⟩],
       1, Except.ok v⟩
    else
      ⟨[startLine, doneLine], 0, Except.ok v⟩
  | Except.error e =>
    ⟨[startLine,
      ⟨"ERROR", "❌ FAILED: " ++ fullContext ++ " after " ++ toString duration ++ "ms"⟩,
      ⟨"ERROR", "❌ ERROR DETAILS: " ++ e.message⟩,
      ⟨"ERROR", "❌ STACK TRACE: " ++ e.stack⟩],
     0, Except.error e⟩

/-- Embedding of the `timeAction` copy in the `sort_feature` spec file:
identical to the others except that its slow branch only logs the
warning — the `testStats.slowOps++` statement is absent there. -/
def timeActionSortFeature (actionName context : String) (outcome : Except JsError α)
    (duration : Nat) : ActionResult α :=
  let fullContext := fullContextOf context actionName
  let startLine : LogEntry := ⟨"ACTION", "⏱️  STARTING: " ++ fullContext⟩
  match outcome with
  | Except.ok v =>
    let doneLine : LogEntry :=
      ⟨"SUCCESS", "✅ COMPLETED: " ++ fullContext ++ " (" ++ toString duration ++ "ms)"⟩
    if duration > 5000 then
      ⟨[startLine, doneLine,
        ⟨"WARNING", "⚠️  SLOW OPERATION: " ++ fullContext ++ " took " ++ toString duration ++ "ms"⟩],
       0, Except.ok v⟩
    else
      ⟨[startLine, doneLine], 0, Except.ok v⟩
  | Except.error e =>
    ⟨[startLine,
      ⟨"ERROR", "❌ FAILED: " ++ fullContext ++ " after " ++ toString duration ++ "ms"⟩,
      ⟨"ERROR", "❌ ERROR DETAILS: " ++ e.message⟩,
      ⟨"ERROR", "❌ STACK TRACE: " ++ e.stack⟩],
     0, Except.error e⟩

/-- The `testStats` counters of `cart.spec.ts` (lines 163-173), without
the `startTime` field, which is modelled by the explicit duration. -/
structure TestStats where
  passed : Nat
  failed : Nat
  warnings : Nat
  slowOps : Nat
  cartAddTests : Nat
  cartRemoveTests : Nat
  multiItemTests : Nat
  navigationTests : Nat
deriving DecidableEq

/-- The counters at the start of a test-file execution: all zero. -/
def initialTestStats : TestStats := ⟨0, 0, 0, 0, 0, 0, 0, 0⟩

/-- The `'='.repeat(60)` separator used by `logTestStatistics`. -/
def sixtyEquals : String := String.mk (List.replicate 60 '=')

/-- Embedding of `logTestStatistics(stats)` from `cart.spec.ts` lines
146-160: the SUMMARY-level lines written at teardown. -/
def logTestStatistics (displayName : String) (stats : TestStats) (duration : Nat) :
    List LogEntry :=
  [⟨"SUMMARY", ""⟩,
   ⟨"SUMMARY", sixtyEquals⟩,
   ⟨"SUMMARY", "📊 " ++ displayName ++ " - FINAL STATISTICS"⟩,
   ⟨"SUMMARY", "🕐 Test Run Duration: " ++ toString duration ++ "ms"⟩,
   ⟨"SUMMARY", "✅ Tests Passed: " ++ toString stats.passed⟩,
   ⟨"SUMMARY", "❌ Tests Failed: " ++ toString stats.failed⟩,
   ⟨"SUMMARY", "⚠️  Warnings Generated: " ++ toString stats.warnings⟩,
   ⟨"SUMMARY", "🐌 Slow Operations: " ++ toString stats.slowOps⟩,
   ⟨"SUMMARY", "🛒 Cart Add Tests: " ++ toString stats.cartAddTests⟩,
   ⟨"SUMMARY", "🗑️  Cart Remove Tests: " ++ toString stats.cartRemoveTests⟩,
   ⟨"SUMMARY", "📦 Multi-Item Tests: " ++ toString stats.multiItemTests⟩,
   ⟨"SUMMARY", "🔄 Navigation Tests: " ++ toString stats.navigationTests⟩,
   ⟨"SUMMARY", sixtyEquals⟩]

/-- The final line appended directly to the master summary in the
`afterAll` hook of `cart.spec.ts` (lines 462-468). -/
def masterFinalLine (ts fileName : String) (stats : TestStats) (duration : Nat) : String :=
  "[" ++ ts ++ "] [" ++ fileName ++ "] COMPLETED - " ++
    "Passed: " ++ toString stats.passed ++ ", Failed: " ++ toString stats.failed ++ ", " ++
    "Cart Add: " ++ toString stats.cartAddTests ++ ", Cart Remove: " ++ toString stats.cartRemoveTests ++ ", " ++
    "Multi-Item: " ++ toString stats.multiItemTests ++ ", Navigation: " ++ toString stats.navigationTests ++ ", " ++
    "Duration: " ++ toString duration ++ "ms"

/-- The `testStats.passed++` call site after a test body succeeds. -/
def incPassed (s : TestStats) : TestStats := { s with passed := s.passed + 1 }

/-- Apply a `timeAction` slow-operation increment to the counters. -/
def addSlowOps (s : TestStats) (k : Nat) : TestStats := { s with slowOps := s.slowOps + k }

/-- One successful timed action of duration `d` followed by the
passed-increment call of the test body. -/
def passedStep (d : Nat) (s : TestStats) : TestStats :=
  incPassed (addSlowOps s (timeAction "action" "" (Except.ok ()) d).slowOpsInc)

/-- The counters of the C8 scenario: three successful timed actions,
each followed by `testStats.passed++`, starting from the zeroed
counters. -/
def c8Stats : TestStats := passedStep 100 (passedStep 100 (passedStep 100 initialTestStats))

/-- The message texts produced by the teardown flush of the C8 scenario:
the `logTestStatistics` lines plus the final master-summary line. -/
def c8FlushMsgs : List String :=
  (logTestStatistics "Cart Feature Tests" c8Stats 1234).map LogEntry.msg ++
    [masterFinalLine "TS" "cart_feature" c8Stats 1234]

/-- A JavaScript number as produced by `parseInt`: either `NaN` or an
integer. -/
inductive JsNum where
  | nan : JsNum
  | int : Int → JsNum
deriving DecidableEq

/-- Accumulate a list of decimal digit characters into a natural. -/
def digitsToNat : List Char → Nat → Nat
  | [], acc => acc
  | c :: cs, acc => digitsToNat cs (acc * 10 + (c.toNat - '0'.toNat))

/-- Models the JavaScript `parseInt` library call on decimal input: skip
leading spaces, read an optional sign and the leading run of decimal
digits, and yield `NaN` when there is no digit.  (Radix prefixes such as
`0x` do not occur in cart-badge text and are out of scope.) -/
def jsParseInt (s : String) : JsNum :=
  let cs := s.data.dropWhile (fun c => c == ' ')
  let negSign := cs.head? == some '-'
  let rest := if cs.head? == some '-' || cs.head? == some '+' then cs.tail else cs
  let digits := rest.takeWhile (fun c => c.isDigit)
  if digits.isEmpty then JsNum.nan
  else if negSign then JsNum.int (-(digitsToNat digits 0 : Int))
  else JsNum.int (digitsToNat digits 0)

/-- The `try` body of `InventoryPage.getCartCount`
(`InventoryPage.ts` lines 52-68): `isVisible()` with its
`.catch(() => false)`, the early `return 0` when the badge is not
visible, then `textContent` (which may reject) and
`text ? parseInt(text) : 0` — `null` and the empty string are falsy. -/
def getCartCountBody (vis : Except String Bool) (txt : Except String (Option String)) :
    Except String JsNum :=
  let isVisible :=
    match vis with
    | Except.error _ => false
    | Except.ok b => b
  if !isVisible then Except.ok (JsNum.int 0)
  else
    match txt with
    | Except.error e => Except.error e
    | Except.ok none => Except.ok (JsNum.int 0)
    | Except.ok (some t) =>
      if t.isEmpty then Except.ok (JsNum.int 0) else Except.ok (jsParseInt t)

/-- Embedding of `InventoryPage.getCartCount`: the `try` body wrapped in
the `catch` that logs and returns `0` on any error. -/
def getCartCount (vis : Except String Bool) (txt : Except String (Option String)) : JsNum :=
  match getCartCountBody vis txt with
  | Except.ok v => v
  | Except.error _ => JsNum.int 0

/-- The twelve qualifying per-run log files of the C6 scenario, labelled
`f1` … `f12` in their run identifiers. -/
def c6Names : List String :=
  ["cart_feature_tests_run_f1.log", "cart_feature_tests_run_f2.log",
   "cart_feature_tests_run_f3.log", "cart_feature_tests_run_f4.log",
   "cart_feature_tests_run_f5.log", "cart_feature_tests_run_f6.log",
   "cart_feature_tests_run_f7.log", "cart_feature_tests_run_f8.log",
   "cart_feature_tests_run_f9.log", "cart_feature_tests_run_f10.log",
   "cart_feature_tests_run_f11.log", "cart_feature_tests_run_f12.log"]

/-- Strictly increasing modification times for the C6 scenario: file
`fi` has time `i`. -/
def c6Time (n : String) : Int :=
  ((c6Names.indexOf n : Nat) : Int) + 1

/-- The qualifying entries of a fully-successful directory listing with
modification times `t`, sorted newest first, exactly as the rotation
routine computes them on the success path. -/
def sortedEntries (featureName : String) (names : List String) (t : String → Int) :
    List FileEntry :=
  List.insertionSort newerFirst
    ((names.filter (qualifies featureName)).map (fun n => ⟨n, t n⟩))

/-! ## Helper lemmas about `logToFile` -/

theorem logToFile_perRun (fileName runId ts : String) (st : LogFiles) (m l : String) :
    (logToFile fileName runId ts st m l).perRun = st.perRun ++ [⟨ts, l, m⟩] := by
  simp only [logToFile]
  split <;> split <;> rfl

theorem logToFile_summary (fileName runId ts : String) (st : LogFiles) (m l : String) :
    (logToFile fileName runId ts st m l).summary =
      (if l == "ERROR" || l == "SUMMARY" || includesStr m "✅" || includesStr m "❌" then
        st.summary ++ [⟨ts, runId, m⟩]
      else st.summary) := by
  simp only [logToFile]
  split <;> split <;> rfl

theorem logToFile_master (fileName runId ts : String) (st : LogFiles) (m l : String) :
    (logToFile fileName runId ts st m l).master =
      (if l == "ERROR" || l == "CRITICAL" || includesStr m "TEST START" || includesStr m "COMPLETED" then
        st.master ++ [⟨ts, fileName, runId, m⟩]
      else st.master) := by
  simp only [logToFile]
  split <;> split <;> rfl

theorem append_singleton_ne {α : Type} (l : List α) (x : α) : l ++ [x] ≠ l := by
  intro h
  have := congrArg List.length h
  simp at this

/-- C2: for every call to `logToFile` with message `m` and level `l`, the
per-feature summary file receives an appended line iff `l` is ERROR or
SUMMARY or `m` contains the glyph `✅` or the glyph `❌`, and the master
summary file receives an appended line iff `l` is ERROR or CRITICAL or
`m` contains the substring `TEST START` or `COMPLETED`. -/
theorem c2_logToFile_routing (fileName runId ts m l : String) (st : LogFiles) :
    ((logToFile fileName runId ts st m l).summary ≠ st.summary ↔
      (l = "ERROR" ∨ l = "SUMMARY" ∨
        includesStr m "✅" = true ∨ includesStr m "❌" = true)) ∧
    ((logToFile fileName runId ts st m l).master ≠ st.master ↔
      (l = "ERROR" ∨ l = "CRITICAL" ∨
        includesStr m "TEST START" = true ∨ includesStr m "COMPLETED" = true)) := by
  constructor
  · rw [logToFile_summary]
    split
    next h =>
      simp only [Bool.or_eq_true, beq_iff_eq, or_assoc] at h
      exact ⟨fun _ => h, fun _ => append_singleton_ne _ _⟩
    next h =>
      constructor
      · intro hne
        exact absurd rfl hne
      · intro hp
        exfalso
        apply h
        simpa only [Bool.or_eq_true, beq_iff_eq, or_assoc] using hp
  · rw [logToFile_master]
    split
    next h =>
      simp only [Bool.or_eq_true, beq_iff_eq, or_assoc] at h
      exact ⟨fun _ => h, fun _ => append_singleton_ne _ _⟩
    next h =>
      constructor
      · intro hne
        exact absurd rfl hne
      · intro hp
        exfalso
        apply h
        simpa only [Bool.or_eq_true, beq_iff_eq, or_assoc] using hp

/-! ## Helper lemmas for the run-level subset invariant -/

theorem logToFile_summary_msg_sub (fileName runId ts m l : String) (st : LogFiles)
    (hs : ∀ s ∈ st.summary, s.msg ∈ st.perRun.map RunLine.msg) :
    ∀ s ∈ (logToFile fileName runId ts st m l).summary,
      s.msg ∈ (logToFile fileName runId ts st m l).perRun.map RunLine.msg := by
  intro s hmem
  rw [logToFile_perRun, List.map_append]
  rw [logToFile_summary] at hmem
  split at hmem
  · rcases List.mem_append.mp hmem with h | h
    · exact List.mem_append_left _ (hs s h)
    · apply List.mem_append_right
      simp only [List.mem_singleton] at h
      subst h
      simp
  · exact List.mem_append_left _ (hs s hmem)

theorem logToFile_master_msg_sub (fileName runId ts m l : String) (st : LogFiles)
    (hm : ∀ x ∈ st.master, x.msg ∈ st.perRun.map RunLine.msg) :
    ∀ x ∈ (logToFile fileName runId ts st m l).master,
      x.msg ∈ (logToFile fileName runId ts st m l).perRun.map RunLine.msg := by
  intro x hmem
  rw [logToFile_perRun, List.map_append]
  rw [logToFile_master] at hmem
  split at hmem
  · rcases List.mem_append.mp hmem with h | h
    · exact List.mem_append_left _ (hm x h)
    · apply List.mem_append_right
      simp only [List.mem_singleton] at h
      subst h
      simp
  · exact List.mem_append_left _ (hm x hmem)

theorem runLog_msg_sub (fileName runId : String) (calls : List LogCall) (st : LogFiles)
    (hs : ∀ s ∈ st.summary, s.msg ∈ st.perRun.map RunLine.msg)
    (hm : ∀ x ∈ st.master, x.msg ∈ st.perRun.map RunLine.msg) :
    (∀ s ∈ (runLog fileName runId st calls).summary,
        s.msg ∈ (runLog fileName runId st calls).perRun.map RunLine.msg) ∧
    (∀ x ∈ (runLog fileName runId st calls).master,
        x.msg ∈ (runLog fileName runId st calls).perRun.map RunLine.msg) := by
  induction calls generalizing st with
  | nil => exact ⟨hs, hm⟩
  | cons c cs ih =>
    exact ih _ (logToFile_summary_msg_sub fileName runId c.ts c.message c.level st hs)
      (logToFile_master_msg_sub fileName runId c.ts c.message c.level st hm)

/-- C10: every call to `logToFile` appends exactly one line
`[ts] [level] message` to the per-run log, whatever the level and
message are; consequently, over a whole run starting from empty files,
the message of every line of the per-feature summary tier and of the
master tier also occurs among the per-run log's messages. -/
theorem c10_perRun_unconditional (fileName runId ts m l : String) (st : LogFiles)
    (calls : List LogCall) :
    (logToFile fileName runId ts st m l).perRun = st.perRun ++ [⟨ts, l, m⟩] ∧
    (∀ s ∈ (runLog fileName runId emptyLogFiles calls).summary,
        s.msg ∈ (runLog fileName runId emptyLogFiles calls).perRun.map RunLine.msg) ∧
    (∀ x ∈ (runLog fileName runId emptyLogFiles calls).master,
        x.msg ∈ (runLog fileName runId emptyLogFiles calls).perRun.map RunLine.msg) := by
  refine ⟨logToFile_perRun fileName runId ts st m l, ?_⟩
  exact runLog_msg_sub fileName runId calls emptyLogFiles
    (by intro s h; simp [emptyLogFiles] at h) (by intro x h; simp [emptyLogFiles] at h)

/-- Witness for C10: a concrete run of one call whose message carries
the success glyph, so the summary tier is nonempty and its message is
found in the per-run log. -/
theorem c10_witness :
    (⟨"T1", "r1", "hi ✅"⟩ : SummaryLine) ∈
      (runLog "f" "r1" emptyLogFiles [⟨"T1", "hi ✅", "INFO"⟩]).summary ∧
    "hi ✅" ∈ (runLog "f" "r1" emptyLogFiles [⟨"T1", "hi ✅", "INFO"⟩]).perRun.map RunLine.msg :=
  ⟨by decide,
   (c10_perRun_unconditional "f" "r1" "T1" "hi ✅" "INFO" emptyLogFiles
      [⟨"T1", "hi ✅", "INFO"⟩]).2.1 ⟨"T1", "r1", "hi ✅"⟩ (by decide)⟩

/-! ## Theorems about `timeAction` -/

/-- C3: when the wrapped operation fails with error `e`, `timeAction`
re-raises exactly `e` — same error value, hence same message — with no
suppression and no retry, after writing exactly one ERROR-level detail
block for the failure: the elapsed time, the error message and the stack
trace, and nothing else at the ERROR level. -/
theorem c3_timeAction_failure (α : Type) (actionName context : String) (e : JsError)
    (duration : Nat) :
    (timeAction (α := α) actionName context (Except.error e) duration).result =
        Except.error e ∧
    (timeAction (α := α) actionName context (Except.error e) duration).logs =
      [⟨"ACTION", "⏱️  STARTING: " ++ fullContextOf context actionName⟩,
       ⟨"ERROR", "❌ FAILED: " ++ fullContextOf context actionName ++ " after " ++
          toString duration ++ "ms"⟩,
       ⟨"ERROR", "❌ ERROR DETAILS: " ++ e.message⟩,
       ⟨"ERROR", "❌ STACK TRACE: " ++ e.stack⟩] ∧
    ((timeAction (α := α) actionName context (Except.error e) duration).logs.filter
        (fun x => x.level == "ERROR")).map LogEntry.msg =
      ["❌ FAILED: " ++ fullContextOf context actionName ++ " after " ++
          toString duration ++ "ms",
       "❌ ERROR DETAILS: " ++ e.message,
       "❌ STACK TRACE: " ++ e.stack] :=
  ⟨rfl, rfl, rfl⟩

/-- C4 (divergence): in the `sort_feature` copy of `timeAction`, a
successful operation slower than 5000 ms logs the single slow-operation
WARNING line but leaves the slow-operation counter untouched, whereas
the copies in the other test files increment it by one. -/
theorem c4_sortFeature_slowOps_not_incremented :
    (timeActionSortFeature "Apply A-Z sort" "A-Z Test" (Except.ok ()) 6000).slowOpsInc = 0 ∧
    ((timeActionSortFeature "Apply A-Z sort" "A-Z Test" (Except.ok ()) 6000).logs.countP
        (fun x => x.level == "WARNING")) = 1 ∧
    (timeAction "Apply A-Z sort" "A-Z Test" (Except.ok ()) 6000).slowOpsInc = 1 := by
  decide

/-! ## Theorems about `getCartCount` -/

/-- C9: `getCartCount` is total — it always returns a JavaScript number
and never propagates an error: it returns `0` when the visibility check
errors or reports the badge as not visible, when reading the text
errors, or when the text is `null` or empty, and otherwise the result of
parsing the badge text. -/
theorem c9_getCartCount_total (vis : Except String Bool) (txt : Except String (Option String)) :
    getCartCount vis txt =
      match vis, txt with
      | Except.error _, _ => JsNum.int 0
      | Except.ok false, _ => JsNum.int 0
      | Except.ok true, Except.error _ => JsNum.int 0
      | Except.ok true, Except.ok none => JsNum.int 0
      | Except.ok true, Except.ok (some t) =>
        if t.isEmpty then JsNum.int 0 else jsParseInt t := by
  rcases vis with e | b
  · rfl
  · cases b
    · rfl
    · rcases txt with e | t
      · rfl
      · rcases t with _ | t
        · rfl
        · by_cases h : t.isEmpty <;>
            simp [getCartCount, getCartCountBody, h]

/-! ## Theorems about the statistics flush (C8) -/

/-- C8 (counterexample): in the scenario with three successful timed
actions each followed by a passed-increment, no line produced by the
teardown flush contains the literal text `passed: 3` — the code prints
the counter with a capital `P`. -/
theorem c8_counterexample_lowercase :
    c8FlushMsgs.all (fun m => !(includesStr m "passed: 3")) = true := by
  decide

/-- C8 (amended): in the same scenario the counters reach `passed = 3`
and the teardown flush produces a summary line containing the text
`Passed: 3` — the final master-summary line — as well as the
SUMMARY-level line containing `Tests Passed: 3`. -/
theorem c8_flush_contains_passed_three :
    c8Stats.passed = 3 ∧
    includesStr (masterFinalLine "TS" "cart_feature" c8Stats 1234) "Passed: 3" = true ∧
    c8FlushMsgs.any (fun m => includesStr m "Passed: 3") = true ∧
    c8FlushMsgs.any (fun m => includesStr m "Tests Passed: 3") = true := by
  decide

/-! ## Helper lemmas about the rotation routine -/

theorem statFiles_pure (t : String → Int) (l : List String) :
    statFiles (fun n => Except.ok (t n)) l =
      Except.ok (l.map (fun n => (⟨n, t n⟩ : FileEntry))) := by
  induction l with
  | nil => rfl
  | cons n ns ih => simp [statFiles, ih]

theorem deleteLoop_pure (l : List FileEntry) :
    deleteLoop (fun _ => Except.ok ()) l =
      (l.map (fun f => (⟨"INFO", "🗑️  Deleted old log: " ++ f.name⟩ : LogEntry)),
       l.map FileEntry.name, none) := by
  induction l with
  | nil => rfl
  | cons f rest ih => simp [deleteLoop, ih]

theorem cleanupOldLogs_pure (featureName : String) (names : List String) (t : String → Int) :
    cleanupOldLogs featureName (pureFs names t) =
      (if (names.filter (qualifies featureName)).length > 10 then
        ⟨⟨"INFO", "📁 Found " ++ toString (names.filter (qualifies featureName)).length ++
              " existing log files for " ++ featureName⟩ ::
            ⟨"INFO", "🗑️  Cleaning up " ++
                toString ((sortedEntries featureName names t).drop 10).length ++
                " old log files"⟩ ::
            ((sortedEntries featureName names t).drop 10).map
              (fun f => ⟨"INFO", "🗑️  Deleted old log: " ++ f.name⟩),
          ((sortedEntries featureName names t).drop 10).map FileEntry.name, 0⟩
      else
        ⟨[⟨"INFO", "📁 Found " ++ toString (names.filter (qualifies featureName)).length ++
              " existing log files for " ++ featureName⟩], [], 0⟩) := by
  have hlen3 : (List.insertionSort newerFirst
      ((names.filter (qualifies featureName)).map (fun n => (⟨n, t n⟩ : FileEntry)))).length =
      (names.filter (qualifies featureName)).length := by
    rw [(List.perm_insertionSort newerFirst _).length_eq, List.length_map]
  simp only [cleanupOldLogs, cleanupBody, pureFs, statFiles_pure, deleteLoop_pure]
  rw [hlen3]
  by_cases hc : (names.filter (qualifies featureName)).length > 10
  · rw [if_pos hc, if_pos hc]
    rfl
  · rw [if_neg hc, if_neg hc]

/-- The names the rotation routine deletes on the success path with more
than ten qualifying files: everything beyond the tenth entry of the
descending sort. -/
theorem cleanupOldLogs_pure_deleted (featureName : String) (names : List String)
    (t : String → Int) (hc : (names.filter (qualifies featureName)).length > 10) :
    (cleanupOldLogs featureName (pureFs names t)).deleted =
      ((sortedEntries featureName names t).drop 10).map FileEntry.name := by
  rw [cleanupOldLogs_pure, if_pos hc]

theorem sortedEntries_perm (featureName : String) (names : List String) (t : String → Int) :
    (sortedEntries featureName names t).Perm
      ((names.filter (qualifies featureName)).map (fun n => ⟨n, t n⟩)) :=
  List.perm_insertionSort newerFirst _

theorem sortedEntries_length (featureName : String) (names : List String) (t : String → Int) :
    (sortedEntries featureName names t).length =
      (names.filter (qualifies featureName)).length := by
  rw [(sortedEntries_perm featureName names t).length_eq, List.length_map]

theorem sortedEntries_sorted (featureName : String) (names : List String) (t : String → Int) :
    List.Pairwise newerFirst (sortedEntries featureName names t) :=
  List.sorted_insertionSort newerFirst _

/-- Every entry of the sorted list is a qualifying name paired with its
modification time. -/
theorem sortedEntries_shape (featureName : String) (names : List String) (t : String → Int) :
    ∀ x ∈ sortedEntries featureName names t,
      x.name ∈ names.filter (qualifies featureName) ∧ x = ⟨x.name, t x.name⟩ := by
  intro x hx
  have hx2 := (sortedEntries_perm featureName names t).mem_iff.mp hx
  obtain ⟨n, hn, rfl⟩ := List.mem_map.mp hx2
  exact ⟨hn, rfl⟩

theorem sortedEntries_names_perm (featureName : String) (names : List String)
    (t : String → Int) :
    ((sortedEntries featureName names t).map FileEntry.name).Perm
      (names.filter (qualifies featureName)) := by
  have h := (sortedEntries_perm featureName names t).map FileEntry.name
  rw [List.map_map] at h
  simpa [Function.comp_def] using h

/-- C5: when at most ten files qualify, the rotation routine deletes
nothing and the directory is unchanged. -/
theorem c5_rotation_no_delete (featureName : String) (names : List String) (t : String → Int)
    (h : (names.filter (qualifies featureName)).length ≤ 10) :
    (cleanupOldLogs featureName (pureFs names t)).deleted = [] ∧
    remainingDir names (cleanupOldLogs featureName (pureFs names t)).deleted = names := by
  have hc : ¬ ((names.filter (qualifies featureName)).length > 10) := by omega
  rw [cleanupOldLogs_pure, if_neg hc]
  refine ⟨rfl, ?_⟩
  unfold remainingDir
  simp

/-- Witness for C5: a directory holding a single qualifying file is left
untouched by the rotation routine. -/
theorem c5_witness :
    (["cart_feature_tests_run_a.log"].filter (qualifies "cart_feature")).length ≤ 10 ∧
    ((cleanupOldLogs "cart_feature"
        (pureFs ["cart_feature_tests_run_a.log"] (fun _ => 0))).deleted = [] ∧
      remainingDir ["cart_feature_tests_run_a.log"]
        (cleanupOldLogs "cart_feature"
          (pureFs ["cart_feature_tests_run_a.log"] (fun _ => 0))).deleted =
        ["cart_feature_tests_run_a.log"]) :=
  ⟨by decide,
   c5_rotation_no_delete "cart_feature" ["cart_feature_tests_run_a.log"] (fun _ => 0)
     (by decide)⟩

set_option maxRecDepth 400000 in
/-- C6: on a directory of twelve qualifying per-run files labelled
`f1` … `f12` with strictly increasing modification times, the rotation
routine deletes the two oldest files `f1` and `f2` and leaves
`f3` … `f12` in the directory. -/
theorem c6_concrete_rotation :
    (cleanupOldLogs "cart_feature" (pureFs c6Names c6Time)).deleted =
      ["cart_feature_tests_run_f2.log", "cart_feature_tests_run_f1.log"] ∧
    remainingDir c6Names (cleanupOldLogs "cart_feature" (pureFs c6Names c6Time)).deleted =
      ["cart_feature_tests_run_f3.log", "cart_feature_tests_run_f4.log",
       "cart_feature_tests_run_f5.log", "cart_feature_tests_run_f6.log",
       "cart_feature_tests_run_f7.log", "cart_feature_tests_run_f8.log",
       "cart_feature_tests_run_f9.log", "cart_feature_tests_run_f10.log",
       "cart_feature_tests_run_f11.log", "cart_feature_tests_run_f12.log"] := by
  constructor <;> decide

/-! ## C7: the rotation routine catches every file-system error -/

theorem deleteLoop_logs_info (unlink : String → Except String Unit) (l : List FileEntry) :
    ∀ x ∈ (deleteLoop unlink l).1, x.level = "INFO" := by
  induction l with
  | nil =>
    intro x hx
    simp [deleteLoop] at hx
  | cons f rest ih =>
    intro x hx
    unfold deleteLoop at hx
    cases h : unlink f.name with
    | error e =>
      rw [h] at hx
      simp at hx
    | ok u =>
      rw [h] at hx
      simp only [List.mem_cons] at hx
      rcases hx with rfl | hx
      · rfl
      · exact ih x hx

theorem cleanupBody_logs_info (featureName : String) (fs : Fs) :
    ∀ x ∈ (cleanupBody featureName fs).1, x.level = "INFO" := by
  intro x
  unfold cleanupBody
  split
  · intro hx
    simp at hx
  · split
    · intro hx
      simp at hx
    · dsimp only
      split
      · intro hx
        simp only [List.mem_cons] at hx
        rcases hx with rfl | rfl | hx
        · rfl
        · rfl
        · exact deleteLoop_logs_info fs.unlink _ x hx
      · intro hx
        simp only [List.mem_singleton] at hx
        subst hx
        rfl

theorem includesFrom_append_self (pre pat : List Char) :
    includesFrom pat (pre ++ pat) = true := by
  induction pre with
  | nil =>
    cases pat with
    | nil => rfl
    | cons c cs =>
      simp only [List.nil_append, includesFrom, Bool.or_eq_true]
      left
      exact List.isPrefixOf_iff_prefix.mpr List.prefix_rfl
  | cons c pre ih =>
    simp only [List.cons_append, includesFrom, Bool.or_eq_true]
    right
    exact ih

theorem includesStr_append_self (pre pat : String) :
    includesStr (pre ++ pat) pat = true := by
  unfold includesStr
  rw [String.data_append]
  exact includesFrom_append_self pre.data pat.data

/-- C7: whenever the body of the rotation routine raises an error `e` —
from listing, stat-ing or deleting — `cleanupOldLogs` consumes it and
returns normally: its output appends to the body's partial logs exactly
one WARNING-level line, that line contains the error message, and the
warnings counter is bumped once. -/
theorem c7_cleanup_catches (featureName : String) (fs : Fs) (e : String)
    (h : (cleanupBody featureName fs).2.2 = some e) :
    (cleanupOldLogs featureName fs).logs =
      (cleanupBody featureName fs).1 ++
        [⟨"WARNING", "⚠️  Failed to cleanup old logs: " ++ e⟩] ∧
    (cleanupOldLogs featureName fs).logs.countP (fun x => x.level == "WARNING") = 1 ∧
    (∃ x ∈ (cleanupOldLogs featureName fs).logs,
        x.level = "WARNING" ∧ includesStr x.msg e = true) ∧
    (cleanupOldLogs featureName fs).warningsInc = 1 := by
  have hlogs : (cleanupOldLogs featureName fs).logs =
      (cleanupBody featureName fs).1 ++
        [⟨"WARNING", "⚠️  Failed to cleanup old logs: " ++ e⟩] := by
    simp only [cleanupOldLogs]
    rw [h]
  have hwinc : (cleanupOldLogs featureName fs).warningsInc = 1 := by
    simp only [cleanupOldLogs]
    rw [h]
  refine ⟨hlogs, ?_, ?_, hwinc⟩
  · rw [hlogs, List.countP_append]
    have hbody : (cleanupBody featureName fs).1.countP (fun x => x.level == "WARNING") = 0 := by
      rw [List.countP_eq_zero]
      intro a ha
      have := cleanupBody_logs_info featureName fs a ha
      simp [this]
    rw [hbody]
    rfl
  · refine ⟨⟨"WARNING", "⚠️  Failed to cleanup old logs: " ++ e⟩, ?_, rfl, ?_⟩
    · rw [hlogs]
      exact List.mem_append_right _ (List.mem_singleton.mpr rfl)
    · exact includesStr_append_self "⚠️  Failed to cleanup old logs: " e

/-- Witness for C7: a file system whose directory listing fails with the
message `boom`; the rotation routine returns normally with the single
warning line. -/
theorem c7_witness :
    (cleanupBody "cart_feature"
        ⟨Except.error "boom", fun _ => Except.ok 0, fun _ => Except.ok ()⟩).2.2 =
      some "boom" ∧
    ((cleanupOldLogs "cart_feature"
        ⟨Except.error "boom", fun _ => Except.ok 0, fun _ => Except.ok ()⟩).logs =
      [⟨"WARNING", "⚠️  Failed to cleanup old logs: " ++ "boom"⟩] ∧
    (∃ x ∈ (cleanupOldLogs "cart_feature"
        ⟨Except.error "boom", fun _ => Except.ok 0, fun _ => Except.ok ()⟩).logs,
        x.level = "WARNING" ∧ includesStr x.msg "boom" = true)) :=
  ⟨rfl,
   (c7_cleanup_catches "cart_feature"
      ⟨Except.error "boom", fun _ => Except.ok 0, fun _ => Except.ok ()⟩ "boom" rfl).1,
   (c7_cleanup_catches "cart_feature"
      ⟨Except.error "boom", fun _ => Except.ok 0, fun _ => Except.ok ()⟩ "boom" rfl).2.2.1⟩

/-! ## C1: rotation keeps exactly the ten newest qualifying files -/

/-- C1: on a directory whose listed names are distinct and whose
qualifying per-run log files number more than ten, with pairwise
distinct modification times, the rotation routine deletes exactly
`N - 10` files, all of them qualifying, so that exactly ten qualifying
files remain, and every deleted file is strictly older than every
qualifying file that remains — the ten most recent survive. -/
theorem c1_rotation_keeps_ten_newest (featureName : String) (names : List String)
    (t : String → Int) (hnd : names.Nodup)
    (hlen : 10 < (names.filter (qualifies featureName)).length)
    (hinj : ∀ a ∈ names.filter (qualifies featureName),
      ∀ b ∈ names.filter (qualifies featureName), t a = t b → a = b) :
    (cleanupOldLogs featureName (pureFs names t)).deleted.length =
        (names.filter (qualifies featureName)).length - 10 ∧
    (∀ d ∈ (cleanupOldLogs featureName (pureFs names t)).deleted,
        qualifies featureName d = true) ∧
    ((remainingDir names (cleanupOldLogs featureName (pureFs names t)).deleted).filter
        (qualifies featureName)).length = 10 ∧
    (∀ d ∈ (cleanupOldLogs featureName (pureFs names t)).deleted,
      ∀ k ∈ remainingDir names (cleanupOldLogs featureName (pureFs names t)).deleted,
        qualifies featureName k = true → t d < t k) := by
  set Q := names.filter (qualifies featureName) with hQ
  set files := sortedEntries featureName names t with hfiles
  have hflen : files.length = Q.length := sortedEntries_length featureName names t
  have hDdef : (cleanupOldLogs featureName (pureFs names t)).deleted =
      (files.drop 10).map FileEntry.name :=
    cleanupOldLogs_pure_deleted featureName names t hlen
  set D := (files.drop 10).map FileEntry.name with hD
  set K := (files.take 10).map FileEntry.name with hK
  have htd : files.take 10 ++ files.drop 10 = files := List.take_append_drop 10 files
  have hmapsplit : files.map FileEntry.name = K ++ D := by
    conv_lhs => rw [← htd]
    rw [List.map_append]
  have hQnodup : Q.Nodup := hnd.filter _
  have hnp : (files.map FileEntry.name).Perm Q := sortedEntries_names_perm featureName names t
  have hfnodup : (files.map FileEntry.name).Nodup := hnp.symm.nodup hQnodup
  have hKD := hmapsplit ▸ hfnodup
  rw [List.nodup_append] at hKD
  obtain ⟨hKnodup, hDnodup, hdisj⟩ := hKD
  have hQKD : Q.Perm (K ++ D) := (hmapsplit ▸ hnp).symm
  have hKlen : K.length = 10 := by
    rw [hK, List.length_map, List.length_take]
    omega
  have hshape : ∀ x ∈ files, x.name ∈ Q ∧ x = ⟨x.name, t x.name⟩ :=
    sortedEntries_shape featureName names t
  have hsorted : List.Pairwise newerFirst files := sortedEntries_sorted featureName names t
  have hDsub : ∀ a ∈ D, a ∈ Q := by
    intro a ha
    rw [hD] at ha
    obtain ⟨ed, hed, rfl⟩ := List.mem_map.mp ha
    exact (hshape ed (List.mem_of_mem_drop hed)).1
  refine ⟨?_, ?_, ?_, ?_⟩
  · rw [hDdef, List.length_map, List.length_drop, hflen]
  · intro d hd
    rw [hDdef, hD] at hd
    obtain ⟨ed, hed, rfl⟩ := List.mem_map.mp hd
    have := (hshape ed (List.mem_of_mem_drop hed)).1
    rw [hQ] at this
    exact (List.mem_filter.mp this).2
  · rw [hDdef]
    unfold remainingDir
    have hfe : ((names.filter (fun n => !(D.contains n))).filter (qualifies featureName)) =
        Q.filter (fun n => !(D.contains n)) := by
      rw [List.filter_filter, hQ, List.filter_filter]
      exact List.filter_congr (fun a _ => Bool.and_comm _ _)
    rw [hfe]
    have hpermK : (Q.filter (fun n => !(D.contains n))).Perm K := by
      have h2 := hQKD.filter (fun n => !(D.contains n))
      rw [List.filter_append] at h2
      have hDnil : D.filter (fun n => !(D.contains n)) = [] := by
        apply List.filter_eq_nil_iff.mpr
        intro a ha
        simpa using ha
      have hKself : K.filter (fun n => !(D.contains n)) = K := by
        apply List.filter_eq_self.mpr
        intro a ha
        have hnm : a ∉ D := fun hmem => hdisj ha hmem
        simpa using hnm
      rw [hDnil, hKself, List.append_nil] at h2
      exact h2
    rw [hpermK.length_eq, hKlen]
  · intro d hd k hk hkq
    rw [hDdef, hD] at hd
    obtain ⟨ed, hed, rfl⟩ := List.mem_map.mp hd
    rw [hDdef] at hk
    unfold remainingDir at hk
    obtain ⟨hknames, hkcont⟩ := List.mem_filter.mp hk
    have hkQ : k ∈ Q := by
      rw [hQ]
      exact List.mem_filter.mpr ⟨hknames, hkq⟩
    have hknotD : k ∉ D := by
      intro hmem
      have hco : D.contains k = true := List.elem_iff.mpr hmem
      rw [hco] at hkcont
      simp at hkcont
    have hkK : k ∈ K := by
      rcases List.mem_append.mp (hQKD.mem_iff.mp hkQ) with h | h
      · exact h
      · exact absurd h hknotD
    rw [hK] at hkK
    obtain ⟨ek, hekt, hekname⟩ := List.mem_map.mp hkK
    have hpw : List.Pairwise newerFirst (files.take 10 ++ files.drop 10) := by
      rw [htd]
      exact hsorted
    have hord : newerFirst ek ed := (List.pairwise_append.mp hpw).2.2 ek hekt ed hed
    have heds := hshape ed (List.mem_of_mem_drop hed)
    have heks := hshape ek (List.mem_of_mem_take hekt)
    have hedtime : ed.time = t ed.name := congrArg FileEntry.time heds.2
    have hektime : ek.time = t ek.name := congrArg FileEntry.time heks.2
    have hle : t ed.name ≤ t k := by
      have := hord
      unfold newerFirst at this
      rw [hedtime, hektime, hekname] at this
      exact this
    have hdD : ed.name ∈ D := by
      rw [hD]
      exact List.mem_map.mpr ⟨ed, hed, rfl⟩
    have hne : ed.name ≠ k := fun heq => hknotD (heq ▸ hdD)
    have hdQ : ed.name ∈ Q := heds.1
    refine lt_of_le_of_ne hle (fun heqt => hne ?_)
    rw [hQ] at hdQ hkQ
    exact hinj ed.name hdQ k hkQ heqt

/-- Witness for C1: eleven qualifying files `w1` … `w11` with strictly
increasing modification times; the rotation deletes one file and leaves
the ten newest. -/
theorem c1_witness :
    (let ns := ["cart_feature_tests_run_w1.log", "cart_feature_tests_run_w2.log",
      "cart_feature_tests_run_w3.log", "cart_feature_tests_run_w4.log",
      "cart_feature_tests_run_w5.log", "cart_feature_tests_run_w6.log",
      "cart_feature_tests_run_w7.log", "cart_feature_tests_run_w8.log",
      "cart_feature_tests_run_w9.log", "cart_feature_tests_run_w10.log",
      "cart_feature_tests_run_w11.log"]
     let tw := fun n => ((ns.indexOf n : Nat) : Int)
     ns.Nodup ∧ 10 < (ns.filter (qualifies "cart_feature")).length ∧
      (∀ a ∈ ns.filter (qualifies "cart_feature"),
        ∀ b ∈ ns.filter (qualifies "cart_feature"), tw a = tw b → a = b) ∧
      ((cleanupOldLogs "cart_feature" (pureFs ns tw)).deleted.length =
          (ns.filter (qualifies "cart_feature")).length - 10 ∧
        (∀ d ∈ (cleanupOldLogs "cart_feature" (pureFs ns tw)).deleted,
            qualifies "cart_feature" d = true) ∧
        ((remainingDir ns (cleanupOldLogs "cart_feature" (pureFs ns tw)).deleted).filter
            (qualifies "cart_feature")).length = 10 ∧
        (∀ d ∈ (cleanupOldLogs "cart_feature" (pureFs ns tw)).deleted,
          ∀ k ∈ remainingDir ns (cleanupOldLogs "cart_feature" (pureFs ns tw)).deleted,
            qualifies "cart_feature" k = true → tw d < tw k))) := by
  refine ⟨?_, ?_, ?_, ?_⟩
  · decide
  · decide
  · decide
  · exact c1_rotation_keeps_ten_newest "cart_feature" _ _ (by decide) (by decide) (by decide)

end SauceDemo
